import Mathlib

/-!
Shallow embedding of the Spectra sales-review session pipeline
(source: src/App.tsx).

The app is a single React component holding six pieces of state
(sessionName, files, isProcessing, uploadStatus, isPreviewOpen,
compiledPdfBlob).  The two asynchronous handlers
(handleCompileAndReview, handleFinalSubmit) are modelled as generators
of an event trace: a list of state-setter calls interleaved with
`suspend` markers, one marker per `await` in the source.  At a
`suspend` the single-threaded JS runtime may run other handlers (in
particular handleReset, which aborts the shared AbortController), so
"the signal is aborted during the k-th await" is modelled by the
parameter `abortAt = some k`.  Applying a trace to a state with
`applyEvents` gives the handler's final state when no other handler
interleaves; reasoning on the raw trace (events after the k-th
suspend) settles the questions about mutations performed after a
Reset.

External collaborators are parameters:
  * `read`  models readFileAsArrayBuffer (App.tsx lines 14-21),
  * `load`  models PDFDocument.load,
  * `fetchResult` models the resolution of the fetch call.
pdf-lib documents are modelled by their ordered page list; the
`copyPages`/`getPageIndices` pair is embedded index-based exactly as
the source uses it, and `save` is modelled as the identity on the page
sequence (serialization is opaque to every claim).
-/

namespace SalesReview

/-- A pdf page handle (opaque to the pipeline). -/
abbrev Page := Nat

/-- Raw bytes produced by the binary reader (opaque to the pipeline). -/
abbrev ArrayBuf := List Nat

/-- A parsed pdf document: its ordered list of pages (pdf-lib handle). -/
structure PdfDoc where
  pages : List Page
deriving DecidableEq

/-- The compiled blob built at App.tsx line 94: the merged page
sequence together with the fixed mime type. -/
structure PdfBlob where
  bytes : List Page
  mimeType : String
deriving DecidableEq

/-- A JS exception value as the two catch blocks discriminate it:
a DOMException (carrying its name), some other Error (carrying its
message), or a non-Error thrown value (e.g. the ProgressEvent a
FileReader rejects with). -/
inductive JsError where
  | domException (name message : String)
  | jsError (message : String)
  | other
deriving DecidableEq

/-- The two non-null values of UploadStatus.type. -/
inductive StatusType where
  | error
  | success
deriving DecidableEq

/-- UploadStatus from ./types as used at App.tsx line 27:
type is null / error / success plus a message. -/
structure UploadStatus where
  type : Option StatusType
  message : String
deriving DecidableEq

/-- A DOM File.  `name` and `size` are the fields the code reads;
`ref` models JS object identity: two File objects allocated
separately get distinct `ref`s, so equality of the whole structure
models reference equality (===) and equality of (name, size) models
the structural identity the spec talks about. -/
structure File where
  name : String
  size : Nat
  ref : Nat
deriving DecidableEq

/-- The six useState cells of the App component (App.tsx lines 24-30). -/
structure AppState where
  sessionName : String
  files : List File
  isProcessing : Bool
  uploadStatus : UploadStatus
  isPreviewOpen : Bool
  compiledPdfBlob : Option PdfBlob
deriving DecidableEq

/-- The state the component mounts with. -/
def initialState : AppState :=
  { sessionName := ""
    files := []
    isProcessing := false
    uploadStatus := { type := none, message := "" }
    isPreviewOpen := false
    compiledPdfBlob := none }

/-- One step of an async handler's trace: a setter call on some state
cell, or a `suspend` marking an await (a point where other handlers,
e.g. Reset, may run). -/
inductive Ev where
  | setSessionName (v : String)
  | setFiles (v : List File)
  | setIsProcessing (b : Bool)
  | setUploadStatus (u : UploadStatus)
  | setIsPreviewOpen (b : Bool)
  | setCompiledPdfBlob (v : Option PdfBlob)
  | suspend
deriving DecidableEq

/-- Apply one trace event to the state (suspends change nothing). -/
def applyEv (s : AppState) : Ev → AppState
  | Ev.setSessionName v => { s with sessionName := v }
  | Ev.setFiles v => { s with files := v }
  | Ev.setIsProcessing b => { s with isProcessing := b }
  | Ev.setUploadStatus u => { s with uploadStatus := u }
  | Ev.setIsPreviewOpen b => { s with isPreviewOpen := b }
  | Ev.setCompiledPdfBlob v => { s with compiledPdfBlob := v }
  | Ev.suspend => s

/-- Run a whole trace against a state (the handler's final state when
no other handler interleaves). -/
def applyEvents (evs : List Ev) (s : AppState) : AppState :=
  evs.foldl applyEv s

/-- Whether the abort signal is set once `suspendsDone` awaits of the
current attempt have completed, when the controller was aborted during
await number `k` (0-indexed); `none` means no abort during the attempt. -/
def isAborted : Option Nat → Nat → Bool
  | none, _ => false
  | some k, suspendsDone => decide (k < suspendsDone)

/-- pdfToMerge.getPageIndices(): [0, 1, ..., pageCount-1]. -/
def getPageIndices (d : PdfDoc) : List Nat :=
  List.range d.pages.length

/-- mergedPdf.copyPages(source, indices): the source's pages at the
given indices, in index order. -/
def copyPages (d : PdfDoc) (idxs : List Nat) : List Page :=
  idxs.filterMap fun i => d.pages.get? i

/-- The pages a file contributes: read it, load it, take the pages;
an unreadable or unparseable file contributes none (only used to
describe the success path, where the error branch is unreachable). -/
def docPages (read : File → Except JsError ArrayBuf)
    (load : ArrayBuf → Except JsError PdfDoc) (f : File) : List Page :=
  match (read f).bind load with
  | Except.ok d => d.pages
  | Except.error _ => []

/-- The exception thrown at App.tsx line 83 when the loop's abort
check fires. -/
def abortError : JsError :=
  JsError.domException "AbortError" "Aborted by user"

/-- The for-of loop of handleCompileAndReview (App.tsx lines 81-91),
one iteration per file: check signal.aborted, await the read, await
PDFDocument.load, await copyPages and add the pages.  Returns the
suspend events the loop emitted, its outcome (the accumulated pages or
the thrown exception), and the number of awaits completed so far
(`cnt` counts awaits completed before the loop starts). -/
def compileLoop (read : File → Except JsError ArrayBuf)
    (load : ArrayBuf → Except JsError PdfDoc) (abortAt : Option Nat) :
    List File → Nat → List Page → List Ev × Except JsError (List Page) × Nat
  | [], cnt, acc => ([], Except.ok acc, cnt)
  | f :: rest, cnt, acc =>
    if isAborted abortAt cnt then
      ([], Except.error abortError, cnt)
    else
      match read f with
      | Except.error e => ([Ev.suspend], Except.error e, cnt + 1)
      | Except.ok buf =>
        match load buf with
        | Except.error e => ([Ev.suspend, Ev.suspend], Except.error e, cnt + 2)
        | Except.ok doc =>
          let r := compileLoop read load abortAt rest (cnt + 3)
            (acc ++ copyPages doc (getPageIndices doc))
          (Ev.suspend :: Ev.suspend :: Ev.suspend :: r.1, r.2)

/-- The catch block of handleCompileAndReview (App.tsx lines 99-105):
an AbortError is only logged; any other Error yields the descriptive
failure notice; a non-Error value yields the generic one. -/
def compileCatch : JsError → List Ev
  | JsError.domException nm msg =>
    if nm = "AbortError" then []
    else [Ev.setUploadStatus
      { type := some StatusType.error, message := "Failed to process files: " ++ msg }]
  | JsError.jsError msg =>
    [Ev.setUploadStatus
      { type := some StatusType.error, message := "Failed to process files: " ++ msg }]
  | JsError.other =>
    [Ev.setUploadStatus
      { type := some StatusType.error,
        message := "An unknown error occurred during file processing." }]

/-- The finally block of both async handlers (App.tsx lines 106-110 and
152-156): isProcessing is cleared only if the signal is not aborted by
the time the block runs (after `cnt` completed awaits). -/
def handlerFinally (abortAt : Option Nat) (cnt : Nat) : List Ev :=
  if isAborted abortAt cnt then [] else [Ev.setIsProcessing false]

/-- The full event trace of one handleCompileAndReview run past its
guard (App.tsx lines 72-110): set isProcessing, clear the notice,
await PDFDocument.create (the first suspend), run the per-file loop,
then either await save and publish the blob and the preview, or run
the catch block; finally runs last. -/
def compileEvents (read : File → Except JsError ArrayBuf)
    (load : ArrayBuf → Except JsError PdfDoc) (abortAt : Option Nat)
    (files : List File) : List Ev :=
  let r := compileLoop read load abortAt files 1 []
  Ev.setIsProcessing true :: Ev.setUploadStatus { type := none, message := "" } ::
    Ev.suspend ::
    (r.1 ++
      match r.2.1 with
      | Except.ok pages =>
        Ev.suspend ::
          Ev.setCompiledPdfBlob (some { bytes := pages, mimeType := "application/pdf" }) ::
          Ev.setIsPreviewOpen true :: handlerFinally abortAt (r.2.2 + 1)
      | Except.error e => compileCatch e ++ handlerFinally abortAt r.2.2)

/-- handleCompileAndReview (App.tsx lines 66-111): a silent no-op
unless sessionName is non-empty, the file set is non-empty and no
operation is in flight; otherwise the final state of its trace. -/
def handleCompileAndReview (read : File → Except JsError ArrayBuf)
    (load : ArrayBuf → Except JsError PdfDoc) (abortAt : Option Nat)
    (s : AppState) : AppState :=
  if s.sessionName = "" ∨ s.files.length = 0 ∨ s.isProcessing = true then s
  else applyEvents (compileEvents read load abortAt s.files) s

/-- The resolution of the fetch call: response.ok, status, statusText
and the body text a later response.text() resolves with. -/
structure FetchResponse where
  ok : Bool
  status : Nat
  statusText : String
  bodyText : String
deriving DecidableEq

/-- The catch block of handleFinalSubmit (App.tsx lines 145-151): an
AbortError yields the distinct cancellation notice; any other Error
yields its own message; a non-Error value yields the generic one. -/
def submitCatch : JsError → List Ev
  | JsError.domException nm msg =>
    if nm = "AbortError" then
      [Ev.setUploadStatus { type := some StatusType.error, message := "Submission cancelled." }]
    else
      [Ev.setUploadStatus { type := some StatusType.error, message := msg }]
  | JsError.jsError msg =>
    [Ev.setUploadStatus { type := some StatusType.error, message := msg }]
  | JsError.other =>
    [Ev.setUploadStatus { type := some StatusType.error, message := "An unknown error occurred." }]

/-- The full event trace of one handleFinalSubmit run past its guard
(App.tsx lines 116-156).  Await number 0 is the fetch: if the signal
is aborted during it the await rejects with an AbortError regardless
of the transport outcome.  On a resolved non-ok response, await number
1 is response.text(), which likewise rejects with an AbortError if the
signal is aborted during it, and otherwise feeds the thrown
upload-failed Error.  On an ok response the success notice is set and
the session, file set, preview and blob are cleared. -/
def submitEvents (abortAt : Option Nat)
    (fetchResult : Except JsError FetchResponse) : List Ev :=
  Ev.setIsProcessing true ::
    match (if isAborted abortAt 1 then
        Except.error (JsError.domException "AbortError" "The user aborted a request.")
      else fetchResult) with
    | Except.error e => Ev.suspend :: (submitCatch e ++ handlerFinally abortAt 1)
    | Except.ok resp =>
      if resp.ok then
        Ev.suspend ::
          Ev.setUploadStatus
            { type := some StatusType.success,
              message := "Upload successful! Your merged PDF was sent." } ::
          Ev.setSessionName "" :: Ev.setFiles [] ::
          Ev.setIsPreviewOpen false :: Ev.setCompiledPdfBlob none ::
          handlerFinally abortAt 1
      else
        Ev.suspend :: Ev.suspend ::
          (submitCatch
            (if isAborted abortAt 2 then
              JsError.domException "AbortError" "The user aborted a request."
            else
              JsError.jsError
                ("Upload failed: " ++ toString resp.status ++ " " ++ resp.statusText ++
                  ". " ++ resp.bodyText)) ++ handlerFinally abortAt 2)

/-- handleFinalSubmit (App.tsx lines 113-157): a silent no-op unless a
compiled blob exists, sessionName is non-empty and no operation is in
flight; otherwise the final state of its trace. -/
def handleFinalSubmit (abortAt : Option Nat)
    (fetchResult : Except JsError FetchResponse) (s : AppState) : AppState :=
  if s.compiledPdfBlob = none ∨ s.sessionName = "" ∨ s.isProcessing = true then s
  else applyEvents (submitEvents abortAt fetchResult) s

/-- handleFilesAdded (App.tsx lines 34-41): append the candidates whose
(name, size) pair is not already present in the previous set. -/
def handleFilesAdded (newFiles prevFiles : List File) : List File :=
  prevFiles ++ newFiles.filter fun nf =>
    !(prevFiles.any fun ef => ef.name == nf.name && ef.size == nf.size)

/-- handleRemoveFile (App.tsx lines 43-45): keep the entries that are
not (referentially) the removed file. -/
def handleRemoveFile (fileToRemove : File) (prevFiles : List File) : List File :=
  prevFiles.filter fun file => file ≠ fileToRemove

/-- handleClosePreview (App.tsx lines 51-54). -/
def handleClosePreview (s : AppState) : AppState :=
  { s with isPreviewOpen := false, compiledPdfBlob := none }

/-- handleReset (App.tsx lines 56-64): abort the active controller
(modelled by the abortAt parameter of the in-flight trace), then clear
session name, files, isProcessing, the preview and blob, and the
notice. -/
def handleReset (s : AppState) : AppState :=
  let s1 := { s with sessionName := "", files := [], isProcessing := false }
  let s2 := handleClosePreview s1
  { s2 with uploadStatus := { type := none, message := "" } }

/-- The trace events strictly after the k-th (0-indexed) suspend
marker: the steps a handler still performs after the await during
which the signal was aborted (i.e. after a Reset ran). -/
def afterNthSuspend : Nat → List Ev → List Ev
  | _, [] => []
  | k, e :: rest =>
    if e = Ev.suspend then (if k = 0 then rest else afterNthSuspend (k - 1) rest)
    else afterNthSuspend k rest

/-- The state mutations a handler performs after the k-th suspend of
its trace (suspend markers filtered out). -/
def mutationsAfter (k : Nat) (evs : List Ev) : List Ev :=
  (afterNthSuspend k evs).filter fun e => e ≠ Ev.suspend

/-! ### Concrete fixtures (used by witnesses and counterexamples) -/

/-- Two distinct File objects carrying the same (name, size) pair. -/
def fileA : File := { name := "report.pdf", size := 5, ref := 0 }

/-- A second object with the same (name, size) pair as fileA. -/
def fileB : File := { name := "report.pdf", size := 5, ref := 1 }

/-- A file unrelated to fileA/fileB. -/
def fileC : File := { name := "notes.pdf", size := 7, ref := 2 }

/-- Another unrelated file. -/
def fileD : File := { name := "extra.pdf", size := 9, ref := 3 }

/-- A sample reader: every file reads successfully into a one-byte
buffer holding its object id. -/
def readW : File → Except JsError ArrayBuf := fun f => Except.ok [f.ref]

/-- A sample loader mapping the three sample buffers to documents with
2, 3 and 1 pages respectively. -/
def loadW : ArrayBuf → Except JsError PdfDoc := fun b =>
  Except.ok ⟨match b with
    | [1] => [10, 11]
    | [2] => [20, 21, 22]
    | [3] => [30]
    | _ => []⟩

/-- A loader that rejects every buffer as unparseable. -/
def loadBadW : ArrayBuf → Except JsError PdfDoc := fun _ =>
  Except.error (JsError.jsError "Failed to parse PDF document")

/-- Three sample input files. -/
def filesW : List File :=
  [{ name := "a.pdf", size := 1, ref := 1 },
   { name := "b.pdf", size := 2, ref := 2 },
   { name := "c.pdf", size := 3, ref := 3 }]

/-- A state ready to compile. -/
def stateW : AppState :=
  { sessionName := "Q3 Sales Review", files := filesW, isProcessing := false,
    uploadStatus := { type := none, message := "" }, isPreviewOpen := false,
    compiledPdfBlob := none }

/-- A state previewing a compiled blob, ready to submit. -/
def stateSubW : AppState :=
  { stateW with
    isPreviewOpen := true
    compiledPdfBlob := some ⟨[10, 11, 20, 21, 22, 30], "application/pdf"⟩ }

/-- A successful fetch response. -/
def okRespW : FetchResponse :=
  { ok := true, status := 200, statusText := "OK", bodyText := "done" }

/-! ### Helper lemmas -/

lemma applyEvents_nil (s : AppState) : applyEvents [] s = s := rfl

lemma applyEvents_cons (e : Ev) (evs : List Ev) (s : AppState) :
    applyEvents (e :: evs) s = applyEvents evs (applyEv s e) := rfl

lemma applyEvents_append (l1 l2 : List Ev) (s : AppState) :
    applyEvents (l1 ++ l2) s = applyEvents l2 (applyEvents l1 s) :=
  List.foldl_append ..

lemma applyEvents_replicate_suspend (n : Nat) (s : AppState) :
    applyEvents (List.replicate n Ev.suspend) s = s := by
  induction n with
  | zero => rfl
  | succ n ih => rw [List.replicate_succ, applyEvents_cons]; exact ih

lemma applyEvents_all_suspend {evs : List Ev} (h : ∀ x ∈ evs, x = Ev.suspend)
    (s : AppState) : applyEvents evs s = s := by
  induction evs with
  | nil => rfl
  | cons e rest ih =>
    have he := h e (List.mem_cons_self e rest)
    subst he
    rw [applyEvents_cons]
    exact ih fun x hx => h x (List.mem_cons_of_mem _ hx)

lemma replicate_suspend_succ3 (n : Nat) :
    List.replicate (3 * (n + 1)) Ev.suspend =
      Ev.suspend :: Ev.suspend :: Ev.suspend :: List.replicate (3 * n) Ev.suspend := by
  rw [Nat.mul_succ, Nat.add_comm, List.replicate_add]
  rfl

lemma filter_mut_all_suspend {l : List Ev} (h : ∀ x ∈ l, x = Ev.suspend) :
    (l.filter fun e => e ≠ Ev.suspend) = [] := by
  induction l with
  | nil => rfl
  | cons a t ih =>
    have ha := h a (List.mem_cons_self a t)
    subst ha
    have ht := ih fun x hx => h x (List.mem_cons_of_mem _ hx)
    simpa [List.filter_cons] using ht

lemma mutationsAfter_all_suspend {l : List Ev} (h : ∀ x ∈ l, x = Ev.suspend)
    (k : Nat) : mutationsAfter k l = [] := by
  induction l generalizing k with
  | nil => rfl
  | cons a t ih =>
    have ha := h a (List.mem_cons_self a t)
    subst ha
    have ht : ∀ x ∈ t, x = Ev.suspend := fun x hx => h x (List.mem_cons_of_mem _ hx)
    show ((afterNthSuspend k (Ev.suspend :: t)).filter fun e => e ≠ Ev.suspend) = []
    rw [afterNthSuspend]
    by_cases hk : k = 0
    · simp only [if_pos rfl, hk, if_pos rfl]
      exact filter_mut_all_suspend ht
    · simp only [if_pos rfl, if_neg hk]
      exact ih ht (k - 1)

lemma mutationsAfter_cons_ne (k : Nat) (e : Ev) (l : List Ev) (h : e ≠ Ev.suspend) :
    mutationsAfter k (e :: l) = mutationsAfter k l := by
  show ((afterNthSuspend k (e :: l)).filter fun x => x ≠ Ev.suspend) =
    ((afterNthSuspend k l).filter fun x => x ≠ Ev.suspend)
  rw [afterNthSuspend, if_neg h]

lemma filterMap_get?_range (l : List Page) :
    (List.range l.length).filterMap l.get? = l := by
  induction l with
  | nil => rfl
  | cons a t ih =>
    rw [List.length_cons, List.range_succ_eq_map, List.filterMap_cons]
    have h0 : (a :: t).get? 0 = some a := rfl
    rw [h0, List.filterMap_map]
    have hcomp : ((a :: t).get? ∘ Nat.succ) = t.get? := by
      funext i
      exact List.get?_cons_succ ..
    rw [hcomp, ih]

lemma copyPages_getPageIndices (d : PdfDoc) :
    copyPages d (getPageIndices d) = d.pages :=
  filterMap_get?_range d.pages

lemma bind_ok_elim {read : File → Except JsError ArrayBuf}
    {load : ArrayBuf → Except JsError PdfDoc} {f : File} {d : PdfDoc}
    (hd : (read f).bind load = Except.ok d) :
    ∃ buf, read f = Except.ok buf ∧ load buf = Except.ok d := by
  cases hr : read f with
  | error e => rw [hr] at hd; exact absurd hd (by simp [Except.bind])
  | ok buf => rw [hr] at hd; exact ⟨buf, rfl, by simpa [Except.bind] using hd⟩

lemma compileLoop_ok (read : File → Except JsError ArrayBuf)
    (load : ArrayBuf → Except JsError PdfDoc) :
    ∀ (files : List File) (cnt : Nat) (acc : List Page),
      (∀ f ∈ files, ∃ d, (read f).bind load = Except.ok d) →
      compileLoop read load none files cnt acc =
        (List.replicate (3 * files.length) Ev.suspend,
          Except.ok (acc ++ (files.map (docPages read load)).flatten),
          cnt + 3 * files.length) := by
  intro files
  induction files with
  | nil => intro cnt acc _; simp [compileLoop]
  | cons f rest ih =>
    intro cnt acc h
    obtain ⟨d, hd⟩ := h f (List.mem_cons_self f rest)
    obtain ⟨buf, hbuf, hload⟩ := bind_ok_elim hd
    have hdoc : docPages read load f = d.pages := by
      simp [docPages, hd]
    have hrest := ih (cnt + 3) (acc ++ copyPages d (getPageIndices d))
      fun g hg => h g (List.mem_cons_of_mem _ hg)
    simp only [compileLoop, isAborted, hbuf, hload, hrest]
    refine Prod.ext ?_ (Prod.ext ?_ ?_)
    · show Ev.suspend :: Ev.suspend :: Ev.suspend ::
        List.replicate (3 * rest.length) Ev.suspend =
        List.replicate (3 * (f :: rest).length) Ev.suspend
      rw [List.length_cons, replicate_suspend_succ3]
    · show Except.ok (acc ++ copyPages d (getPageIndices d) ++
        (rest.map (docPages read load)).flatten) =
        Except.ok (acc ++ ((f :: rest).map (docPages read load)).flatten)
      rw [copyPages_getPageIndices, List.map_cons, List.flatten_cons, hdoc,
        List.append_assoc]
    · show cnt + 3 + 3 * rest.length = cnt + 3 * (f :: rest).length
      rw [List.length_cons]
      omega

lemma compileLoop_abort (read : File → Except JsError ArrayBuf)
    (load : ArrayBuf → Except JsError PdfDoc) (k : Nat) :
    ∀ (files : List File) (cnt : Nat) (acc : List Page),
      files ≠ [] →
      (∀ f ∈ files, ∃ d, (read f).bind load = Except.ok d) →
      k < cnt + 3 * (files.length - 1) →
      ∃ m, compileLoop read load (some k) files cnt acc =
          (List.replicate (3 * m) Ev.suspend, Except.error abortError, cnt + 3 * m)
        ∧ k < cnt + 3 * m := by
  intro files
  induction files with
  | nil => intro cnt acc hne _ _; exact absurd rfl hne
  | cons f rest ih =>
    intro cnt acc _ h hk
    by_cases hkc : k < cnt
    · refine ⟨0, ?_, by omega⟩
      have hab : isAborted (some k) cnt = true := by
        simp [isAborted, hkc]
      simp [compileLoop, hab]
    · have hrestne : rest ≠ [] := by
        intro hr
        subst hr
        simp at hk
        omega
      obtain ⟨d, hd⟩ := h f (List.mem_cons_self f rest)
      obtain ⟨buf, hbuf, hload⟩ := bind_ok_elim hd
      have hk' : k < (cnt + 3) + 3 * (rest.length - 1) := by
        have h1 : 1 ≤ rest.length := List.length_pos.mpr hrestne
        rw [List.length_cons] at hk
        omega
      obtain ⟨m, heq, hkm⟩ := ih (cnt + 3) (acc ++ copyPages d (getPageIndices d))
        hrestne (fun g hg => h g (List.mem_cons_of_mem _ hg)) hk'
      refine ⟨m + 1, ?_, by omega⟩
      have hab : isAborted (some k) cnt = false := by
        simp [isAborted]
        omega
      simp only [compileLoop, hab, Bool.false_eq_true, if_false, hbuf, hload, heq]
      refine Prod.ext ?_ (Prod.ext rfl ?_)
      · show Ev.suspend :: Ev.suspend :: Ev.suspend ::
          List.replicate (3 * m) Ev.suspend = List.replicate (3 * (m + 1)) Ev.suspend
        rw [replicate_suspend_succ3]
      · show cnt + 3 + 3 * m = cnt + 3 * (m + 1)
        omega

lemma compileLoop_err (read : File → Except JsError ArrayBuf)
    (load : ArrayBuf → Except JsError PdfDoc)
    (hread : ∀ f m, read f ≠ Except.error (JsError.domException "AbortError" m))
    (hload : ∀ b m, load b ≠ Except.error (JsError.domException "AbortError" m)) :
    ∀ (files : List File) (cnt : Nat) (acc : List Page),
      (∃ f ∈ files, ∃ e, (read f).bind load = Except.error e) →
      ∃ evs e c, compileLoop read load none files cnt acc = (evs, Except.error e, c)
        ∧ (∀ x ∈ evs, x = Ev.suspend)
        ∧ (∀ m, e ≠ JsError.domException "AbortError" m) := by
  intro files
  induction files with
  | nil => intro cnt acc h; simp at h
  | cons f rest ih =>
    intro cnt acc h
    have hab : isAborted (none : Option Nat) cnt = false := rfl
    cases hr : read f with
    | error e =>
      refine ⟨[Ev.suspend], e, cnt + 1, ?_, ?_, ?_⟩
      · simp [compileLoop, hab, hr]
      · intro x hx; simpa using hx
      · intro m hm
        exact hread f m (hm ▸ hr)
    | ok buf =>
      cases hl : load buf with
      | error e =>
        refine ⟨[Ev.suspend, Ev.suspend], e, cnt + 2, ?_, ?_, ?_⟩
        · simp [compileLoop, hab, hr, hl]
        · intro x hx
          simp only [List.mem_cons, List.not_mem_nil, or_false] at hx
          rcases hx with rfl | rfl <;> rfl
        · intro m hm
          exact hload buf m (hm ▸ hl)
      | ok doc =>
        have hin : ∃ g ∈ rest, ∃ e, (read g).bind load = Except.error e := by
          obtain ⟨g, hg, e, he⟩ := h
          rcases List.mem_cons.mp hg with hgf | hgr
          · subst hgf
            rw [hr] at he
            simp [Except.bind, hl] at he
          · exact ⟨g, hgr, e, he⟩
        obtain ⟨evs, e, c, heq, hsusp, hnotab⟩ :=
          ih (cnt + 3) (acc ++ copyPages doc (getPageIndices doc)) hin
        refine ⟨Ev.suspend :: Ev.suspend :: Ev.suspend :: evs, e, c, ?_, ?_, hnotab⟩
        · simp only [compileLoop, hab, Bool.false_eq_true, if_false, hr, hl, heq]
        · intro x hx
          simp only [List.mem_cons] at hx
          rcases hx with rfl | rfl | rfl | hx
          · rfl
          · rfl
          · rfl
          · exact hsusp x hx

lemma string_append_ne_empty {a : String} (ha : a.length ≠ 0) (m : String) :
    a ++ m ≠ "" := by
  intro h
  have hlen := congrArg String.length h
  rw [String.length_append] at hlen
  have h0 : ("" : String).length = 0 := rfl
  omega

lemma compileEvents_ok (read : File → Except JsError ArrayBuf)
    (load : ArrayBuf → Except JsError PdfDoc) (files : List File)
    (hok : ∀ f ∈ files, ∃ d, (read f).bind load = Except.ok d) :
    compileEvents read load none files =
      Ev.setIsProcessing true :: Ev.setUploadStatus { type := none, message := "" } ::
        Ev.suspend ::
        (List.replicate (3 * files.length) Ev.suspend ++
          (Ev.suspend ::
            Ev.setCompiledPdfBlob
              (some { bytes := (files.map (docPages read load)).flatten,
                      mimeType := "application/pdf" }) ::
            Ev.setIsPreviewOpen true :: [Ev.setIsProcessing false])) := by
  simp only [compileEvents, compileLoop_ok read load files 1 [] hok]
  rfl

lemma compileEvents_abort (read : File → Except JsError ArrayBuf)
    (load : ArrayBuf → Except JsError PdfDoc) (files : List File) (k : Nat)
    (hne : files ≠ [])
    (hok : ∀ f ∈ files, ∃ d, (read f).bind load = Except.ok d)
    (hk : k < 1 + 3 * (files.length - 1)) :
    ∃ m, compileEvents read load (some k) files =
        Ev.setIsProcessing true :: Ev.setUploadStatus { type := none, message := "" } ::
          Ev.suspend :: List.replicate (3 * m) Ev.suspend
      ∧ k < 1 + 3 * m := by
  obtain ⟨m, heq, hkm⟩ := compileLoop_abort read load k files 1 [] hne hok (by omega)
  refine ⟨m, ?_, by omega⟩
  have hab : isAborted (some k) (1 + 3 * m) = true := by
    simp [isAborted]
    omega
  simp only [compileEvents, heq, compileCatch, if_pos rfl, handlerFinally, hab,
    abortError, if_true, List.append_nil]

lemma compileEvents_err (read : File → Except JsError ArrayBuf)
    (load : ArrayBuf → Except JsError PdfDoc) (files : List File)
    (hread : ∀ f m, read f ≠ Except.error (JsError.domException "AbortError" m))
    (hload : ∀ b m, load b ≠ Except.error (JsError.domException "AbortError" m))
    (herr : ∃ f ∈ files, ∃ e, (read f).bind load = Except.error e) :
    ∃ evs msg, compileEvents read load none files =
        Ev.setIsProcessing true :: Ev.setUploadStatus { type := none, message := "" } ::
          Ev.suspend ::
          (evs ++
            (Ev.setUploadStatus { type := some StatusType.error, message := msg } ::
              [Ev.setIsProcessing false]))
      ∧ (∀ x ∈ evs, x = Ev.suspend) ∧ msg ≠ "" := by
  obtain ⟨evs, e, c, heq, hsusp, hnotab⟩ :=
    compileLoop_err read load hread hload files 1 [] herr
  have hcatch : ∃ msg, compileCatch e =
      [Ev.setUploadStatus { type := some StatusType.error, message := msg }] ∧
      msg ≠ "" := by
    cases e with
    | domException nm m =>
      have hnm : nm ≠ "AbortError" := by
        intro hc
        exact hnotab m (by rw [hc])
      exact ⟨"Failed to process files: " ++ m, by simp [compileCatch, hnm],
        string_append_ne_empty (by decide) m⟩
    | jsError m =>
      exact ⟨"Failed to process files: " ++ m, by simp [compileCatch],
        string_append_ne_empty (by decide) m⟩
    | other =>
      exact ⟨"An unknown error occurred during file processing.",
        by simp [compileCatch], by decide⟩
  obtain ⟨msg, hmsg, hne⟩ := hcatch
  refine ⟨evs, msg, ?_, hsusp, hne⟩
  simp only [compileEvents, heq, hmsg, handlerFinally, isAborted, if_neg,
    Bool.false_eq_true, if_false]
  rfl

/-! ### Claim theorems -/

/-- C7: whenever the compile guard is unmet (empty session name, empty
file set, or an operation already in progress), invoking
handleCompileAndReview is a silent no-op: the state is returned
completely unchanged (no transition, no notice, no error), for any
environment and any abort behaviour. -/
theorem c7_compile_guard_silent_noop
    (read : File → Except JsError ArrayBuf) (load : ArrayBuf → Except JsError PdfDoc)
    (abortAt : Option Nat) (s : AppState)
    (h : s.sessionName = "" ∨ s.files.length = 0 ∨ s.isProcessing = true) :
    handleCompileAndReview read load abortAt s = s := by
  rw [handleCompileAndReview, if_pos h]

/-- Witness for C7: compiling with an empty session name and a
non-empty file set changes nothing. -/
theorem c7_compile_guard_silent_noop_witness :
    handleCompileAndReview readW loadW none { stateW with sessionName := "" } =
      { stateW with sessionName := "" } :=
  c7_compile_guard_silent_noop readW loadW none _ (Or.inl rfl)

/-- C8 counterexample: the file set holds an entry whose
(displayName, sizeBytes) pair equals the removal argument's pair, yet
handleRemoveFile leaves the set unchanged — the code removes by JS
reference identity, not by the structural (name, size) identity the
claim states, so the claim as stated is false. -/
theorem c8_remove_structural_counterexample :
    fileA.name = fileB.name ∧ fileA.size = fileB.size ∧
    handleRemoveFile fileB [fileA] = [fileA] := by decide

/-- C8 (amended): handleRemoveFile deletes every entry referentially
identical to the argument; if the object is absent the call is a
no-op, and when the object occurs exactly once the length decreases by
exactly 1 and the relative order of the remaining entries is
preserved. -/
theorem c8_remove_by_reference (l l1 l2 : List File) (f : File) :
    (f ∉ l → handleRemoveFile f l = l) ∧
    (f ∉ l1 → f ∉ l2 →
      handleRemoveFile f (l1 ++ f :: l2) = l1 ++ l2 ∧
      (handleRemoveFile f (l1 ++ f :: l2)).length + 1 = (l1 ++ f :: l2).length) := by
  constructor
  · intro hf
    exact List.filter_eq_self.mpr fun a ha =>
      decide_eq_true fun haf => hf (haf ▸ ha)
  · intro h1 h2
    have hmain : handleRemoveFile f (l1 ++ f :: l2) = l1 ++ l2 := by
      rw [handleRemoveFile, List.filter_append, List.filter_cons]
      have hff : (decide ¬(f = f)) = false := by simp
      rw [hff]
      simp only [Bool.false_eq_true, if_false]
      have hl1 : (l1.filter fun file => file ≠ f) = l1 :=
        List.filter_eq_self.mpr fun a ha =>
          decide_eq_true fun haf => h1 (haf ▸ ha)
      have hl2 : (l2.filter fun file => file ≠ f) = l2 :=
        List.filter_eq_self.mpr fun a ha =>
          decide_eq_true fun haf => h2 (haf ▸ ha)
      rw [show (l1.filter fun file => decide ¬(file = f)) = l1 from hl1,
        show (l2.filter fun file => decide ¬(file = f)) = l2 from hl2]
    refine ⟨hmain, ?_⟩
    rw [hmain]
    simp [List.length_append]
    omega

/-- Witness for C8 (amended): removing an absent object is a no-op;
removing a once-present object deletes exactly it. -/
theorem c8_remove_by_reference_witness :
    (handleRemoveFile fileB [fileA] = [fileA]) ∧
    (handleRemoveFile fileB ([fileA] ++ fileB :: [fileC]) = [fileA] ++ [fileC] ∧
      (handleRemoveFile fileB ([fileA] ++ fileB :: [fileC])).length + 1 =
        ([fileA] ++ fileB :: [fileC]).length) := by
  have h := c8_remove_by_reference [fileA] [fileA] [fileC] fileB
  exact ⟨h.1 (by decide), h.2 (by decide) (by decide)⟩

lemma mem_addFilter (prevFiles newFiles : List File) (x : File) :
    (x ∈ newFiles.filter fun nf =>
      !(prevFiles.any fun ef => ef.name == nf.name && ef.size == nf.size)) ↔
    x ∈ newFiles ∧ ¬ ∃ e ∈ prevFiles, e.name = x.name ∧ e.size = x.size := by
  have hb : ∀ (b : Bool), ((!b) = true ↔ ¬ b = true) := by decide
  rw [List.mem_filter, hb, List.any_eq_true]
  simp only [Bool.and_eq_true, beq_iff_eq]

/-- C9: handleFilesAdded keeps the existing entries in place (the old
set is a prefix of the result) and the appended tail is a sublist of
the candidate batch — an order-preserving subsequence of arrival
order, so no reordering of the appended candidates is possible; a
single candidate whose (name, size) pair matches an existing entry
changes nothing; and an element is in the result exactly when it was
already present or is a candidate whose (name, size) pair is not
matched by any existing entry. -/
theorem c9_add_dedups_against_existing
    (newFiles prevFiles : List File) (c : File) :
    (∃ t, handleFilesAdded newFiles prevFiles = prevFiles ++ t ∧
      List.Sublist t newFiles) ∧
    ((∃ e ∈ prevFiles, e.name = c.name ∧ e.size = c.size) →
      handleFilesAdded [c] prevFiles = prevFiles) ∧
    (∀ x, x ∈ handleFilesAdded newFiles prevFiles ↔
      x ∈ prevFiles ∨
        (x ∈ newFiles ∧ ¬ ∃ e ∈ prevFiles, e.name = x.name ∧ e.size = x.size)) := by
  refine ⟨⟨_, rfl, List.filter_sublist newFiles⟩, ?_, ?_⟩
  · rintro ⟨e, he, hn, hs⟩
    rw [handleFilesAdded]
    have hany : (prevFiles.any fun ef => ef.name == c.name && ef.size == c.size) = true :=
      List.any_eq_true.mpr ⟨e, he, by simp [hn, hs]⟩
    simp [hany]
  · intro x
    rw [handleFilesAdded, List.mem_append, mem_addFilter]

/-- Witness for C9: a fresh candidate is appended after the existing
entries, in arrival order; a candidate duplicating an existing
(name, size) pair leaves the set unchanged. -/
theorem c9_add_dedups_against_existing_witness :
    (∃ t, handleFilesAdded [fileD] [fileA] = [fileA] ++ t ∧
      List.Sublist t [fileD]) ∧
    handleFilesAdded [fileB] [fileA] = [fileA] ∧
    (fileD ∈ handleFilesAdded [fileD] [fileA] ↔
      fileD ∈ [fileA] ∨
        (fileD ∈ [fileD] ∧ ¬ ∃ e ∈ [fileA], e.name = fileD.name ∧ e.size = fileD.size)) := by
  have h := c9_add_dedups_against_existing [fileD] [fileA] fileB
  exact ⟨h.1, h.2.1 ⟨fileA, by decide, rfl, rfl⟩, h.2.2 fileD⟩

/-- C5: a submit attempt that receives an ok (2xx) response clears the
session name to "" and the file set to empty, discards the compiled
artifact and closes the preview, sets a success notice and returns to
Idle (isProcessing false). -/
theorem c5_submit_success_clears_session
    (resp : FetchResponse) (s : AppState)
    (h1 : s.compiledPdfBlob ≠ none) (h2 : s.sessionName ≠ "")
    (h3 : s.isProcessing = false) (hok : resp.ok = true) :
    handleFinalSubmit none (Except.ok resp) s =
      { initialState with
        uploadStatus := ⟨some StatusType.success,
          "Upload successful! Your merged PDF was sent."⟩ } := by
  have hguard : ¬(s.compiledPdfBlob = none ∨ s.sessionName = "" ∨
      s.isProcessing = true) := by
    push_neg
    exact ⟨h1, h2, by simp [h3]⟩
  rw [handleFinalSubmit, if_neg hguard]
  obtain ⟨rok, rst, rstx, rbody⟩ := resp
  dsimp only at hok
  subst hok
  rfl

/-- Witness for C5: a concrete 200 response on the sample previewing
state. -/
theorem c5_submit_success_clears_session_witness :
    handleFinalSubmit none (Except.ok okRespW) stateSubW =
      { initialState with
        uploadStatus := ⟨some StatusType.success,
          "Upload successful! Your merged PDF was sent."⟩ } :=
  c5_submit_success_clears_session okRespW stateSubW (by decide) (by decide) rfl rfl

/-- C2 counterexample: a transport-level rejection of the fetch (a
rejection that is not an AbortError, e.g. a TypeError with message
"Failed to fetch") does NOT yield the cancellation notice: the notice
carries the rejection's own message, so the claim that both kinds of
interruption yield "Submission cancelled." is false. -/
theorem c2_transport_rejection_counterexample :
    (handleFinalSubmit none (Except.error (JsError.jsError "Failed to fetch"))
        stateSubW).uploadStatus =
      { type := some StatusType.error, message := "Failed to fetch" } ∧
    ({ type := some StatusType.error, message := "Failed to fetch" } : UploadStatus) ≠
      { type := some StatusType.error, message := "Submission cancelled." } := by
  constructor
  · rfl
  · decide

/-- C2 (amended): cancelling the token while the network call is in
flight yields exactly the notice {error, "Submission cancelled."}, for
any transport outcome; a network rejection without cancellation (a
non-abort Error) yields a notice carrying that rejection's own
message, not the cancellation message. -/
theorem c2_submit_cancellation_notice
    (s : AppState) (fetchResult : Except JsError FetchResponse)
    (h1 : s.compiledPdfBlob ≠ none) (h2 : s.sessionName ≠ "")
    (h3 : s.isProcessing = false) :
    (handleFinalSubmit (some 0) fetchResult s).uploadStatus =
      { type := some StatusType.error, message := "Submission cancelled." } ∧
    ∀ msg, (handleFinalSubmit none (Except.error (JsError.jsError msg)) s).uploadStatus =
      { type := some StatusType.error, message := msg } := by
  have hguard : ¬(s.compiledPdfBlob = none ∨ s.sessionName = "" ∨
      s.isProcessing = true) := by
    push_neg
    exact ⟨h1, h2, by simp [h3]⟩
  constructor
  · rw [handleFinalSubmit, if_neg hguard]
    rfl
  · intro msg
    rw [handleFinalSubmit, if_neg hguard]
    rfl

/-- Witness for C2 (amended): aborting during the fetch on the sample
previewing state, and a concrete non-abort rejection. -/
theorem c2_submit_cancellation_notice_witness :
    (handleFinalSubmit (some 0) (Except.ok okRespW) stateSubW).uploadStatus =
      { type := some StatusType.error, message := "Submission cancelled." } ∧
    (handleFinalSubmit none (Except.error (JsError.jsError "Failed to fetch"))
        stateSubW).uploadStatus =
      { type := some StatusType.error, message := "Failed to fetch" } := by
  have h := c2_submit_cancellation_notice stateSubW (Except.ok okRespW)
    (by decide) (by decide) rfl
  exact ⟨h.1, h.2 "Failed to fetch"⟩

/-- C3: a compile attempt interrupted by cancellation (the token is
signalled during an await early enough for a loop iteration check to
observe it) settles with no status notice (kind none), leaves the file
set and session name unchanged, opens no preview and stores no
artifact. -/
theorem c3_compile_cancellation_suppressed
    (read : File → Except JsError ArrayBuf) (load : ArrayBuf → Except JsError PdfDoc)
    (s : AppState) (k : Nat)
    (h1 : s.sessionName ≠ "") (h2 : s.files ≠ []) (h3 : s.isProcessing = false)
    (hok : ∀ f ∈ s.files, ∃ d, (read f).bind load = Except.ok d)
    (hk : k < 1 + 3 * (s.files.length - 1)) :
    (handleCompileAndReview read load (some k) s).uploadStatus =
      { type := none, message := "" } ∧
    (handleCompileAndReview read load (some k) s).files = s.files ∧
    (handleCompileAndReview read load (some k) s).sessionName = s.sessionName ∧
    (handleCompileAndReview read load (some k) s).isPreviewOpen = s.isPreviewOpen ∧
    (handleCompileAndReview read load (some k) s).compiledPdfBlob = s.compiledPdfBlob := by
  have hguard : ¬(s.sessionName = "" ∨ s.files.length = 0 ∨ s.isProcessing = true) := by
    push_neg
    refine ⟨h1, ?_, by simp [h3]⟩
    simpa [List.length_eq_zero] using h2
  obtain ⟨m, heq, hkm⟩ := compileEvents_abort read load s.files k h2 hok hk
  rw [handleCompileAndReview, if_neg hguard, heq, applyEvents_cons, applyEvents_cons,
    applyEvents_cons, applyEvents_replicate_suspend]
  exact ⟨rfl, rfl, rfl, rfl, rfl⟩

/-- Witness for C3: cancelling the sample compile during its first
await. -/
theorem c3_compile_cancellation_suppressed_witness :
    (handleCompileAndReview readW loadW (some 0) stateW).uploadStatus =
      { type := none, message := "" } ∧
    (handleCompileAndReview readW loadW (some 0) stateW).files = stateW.files ∧
    (handleCompileAndReview readW loadW (some 0) stateW).sessionName = stateW.sessionName ∧
    (handleCompileAndReview readW loadW (some 0) stateW).isPreviewOpen = stateW.isPreviewOpen ∧
    (handleCompileAndReview readW loadW (some 0) stateW).compiledPdfBlob =
      stateW.compiledPdfBlob :=
  c3_compile_cancellation_suppressed readW loadW stateW 0 (by decide) (by decide) rfl
    (fun f hf => ⟨_, rfl⟩) (by decide)

/-- C4: a successful compile stores a blob whose page sequence is
exactly the concatenation of the input documents' page lists in input
order (no reordering, filtering or deduplication), opens the preview,
and the output page count is the sum of the input page counts. -/
theorem c4_merge_concatenates_pages
    (read : File → Except JsError ArrayBuf) (load : ArrayBuf → Except JsError PdfDoc)
    (s : AppState)
    (h1 : s.sessionName ≠ "") (h2 : s.files ≠ []) (h3 : s.isProcessing = false)
    (hok : ∀ f ∈ s.files, ∃ d, (read f).bind load = Except.ok d) :
    (handleCompileAndReview read load none s).compiledPdfBlob =
      some ⟨(s.files.map (docPages read load)).flatten, "application/pdf"⟩ ∧
    (handleCompileAndReview read load none s).isPreviewOpen = true ∧
    ((s.files.map (docPages read load)).flatten).length =
      (s.files.map fun f => (docPages read load f).length).sum := by
  have hguard : ¬(s.sessionName = "" ∨ s.files.length = 0 ∨ s.isProcessing = true) := by
    push_neg
    refine ⟨h1, ?_, by simp [h3]⟩
    simpa [List.length_eq_zero] using h2
  rw [handleCompileAndReview, if_neg hguard, compileEvents_ok read load s.files hok,
    applyEvents_cons, applyEvents_cons, applyEvents_cons, applyEvents_append,
    applyEvents_replicate_suspend, applyEvents_cons, applyEvents_cons, applyEvents_cons,
    applyEvents_cons, applyEvents_nil]
  refine ⟨rfl, rfl, ?_⟩
  rw [List.length_flatten, List.map_map]
  rfl

/-- Witness for C4: three sample documents with page counts 2, 3 and 1
merge to the 6-page concatenation in order. -/
theorem c4_merge_concatenates_pages_witness :
    (handleCompileAndReview readW loadW none stateW).compiledPdfBlob =
      some ⟨[10, 11, 20, 21, 22, 30], "application/pdf"⟩ ∧
    (handleCompileAndReview readW loadW none stateW).isPreviewOpen = true ∧
    ((stateW.files.map (docPages readW loadW)).flatten).length = 6 := by
  have h := c4_merge_concatenates_pages readW loadW stateW (by decide) (by decide) rfl
    (fun f hf => ⟨_, rfl⟩)
  exact ⟨h.1.trans (by rfl), h.2.1, h.2.2.trans (by rfl)⟩

/-- C6: a compile attempt in which some file read fails or some buffer
does not parse ends with an error notice carrying a non-empty message,
with the file set and session name unchanged from when the compile
started, no preview opened, no artifact stored, and isProcessing
cleared (the operator can retry without re-uploading). -/
theorem c6_compile_failure_preserves_inputs
    (read : File → Except JsError ArrayBuf) (load : ArrayBuf → Except JsError PdfDoc)
    (s : AppState)
    (h1 : s.sessionName ≠ "") (h2 : s.files ≠ []) (h3 : s.isProcessing = false)
    (hread : ∀ f m, read f ≠ Except.error (JsError.domException "AbortError" m))
    (hload : ∀ b m, load b ≠ Except.error (JsError.domException "AbortError" m))
    (herr : ∃ f ∈ s.files, ∃ e, (read f).bind load = Except.error e) :
    (handleCompileAndReview read load none s).uploadStatus.type = some StatusType.error ∧
    (handleCompileAndReview read load none s).uploadStatus.message ≠ "" ∧
    (handleCompileAndReview read load none s).files = s.files ∧
    (handleCompileAndReview read load none s).sessionName = s.sessionName ∧
    (handleCompileAndReview read load none s).isProcessing = false ∧
    (handleCompileAndReview read load none s).isPreviewOpen = s.isPreviewOpen ∧
    (handleCompileAndReview read load none s).compiledPdfBlob = s.compiledPdfBlob := by
  have hguard : ¬(s.sessionName = "" ∨ s.files.length = 0 ∨ s.isProcessing = true) := by
    push_neg
    refine ⟨h1, ?_, by simp [h3]⟩
    simpa [List.length_eq_zero] using h2
  obtain ⟨evs, msg, heq, hsusp, hmsgne⟩ :=
    compileEvents_err read load s.files hread hload herr
  rw [handleCompileAndReview, if_neg hguard, heq, applyEvents_cons, applyEvents_cons,
    applyEvents_cons, applyEvents_append, applyEvents_all_suspend hsusp,
    applyEvents_cons, applyEvents_cons, applyEvents_nil]
  exact ⟨rfl, hmsgne, rfl, rfl, rfl, rfl, rfl⟩

/-- Witness for C6: a loader that rejects every buffer on the sample
compile state. -/
theorem c6_compile_failure_preserves_inputs_witness :
    (handleCompileAndReview readW loadBadW none stateW).uploadStatus.type =
      some StatusType.error ∧
    (handleCompileAndReview readW loadBadW none stateW).uploadStatus.message ≠ "" ∧
    (handleCompileAndReview readW loadBadW none stateW).files = stateW.files ∧
    (handleCompileAndReview readW loadBadW none stateW).sessionName = stateW.sessionName ∧
    (handleCompileAndReview readW loadBadW none stateW).isProcessing = false ∧
    (handleCompileAndReview readW loadBadW none stateW).isPreviewOpen =
      stateW.isPreviewOpen ∧
    (handleCompileAndReview readW loadBadW none stateW).compiledPdfBlob =
      stateW.compiledPdfBlob :=
  c6_compile_failure_preserves_inputs readW loadBadW stateW (by decide) (by decide) rfl
    (by intro f m h; simp [readW] at h)
    (by intro b m h; simp [loadBadW] at h)
    ⟨{ name := "a.pdf", size := 1, ref := 1 }, by decide,
      JsError.jsError "Failed to parse PDF document", rfl⟩

/-- C1 counterexample: when the token is aborted during await 0 of a
submit (Reset ran while the fetch was in flight), the submit's
rejection handler still runs afterwards and sets the notice
{error, "Submission cancelled."} — a state mutation after the Reset.
Likewise a compile whose token is signalled during the last file's
read (after the loop's final cancellation check, here await 7 of the
three-file sample) still stores the artifact and opens the preview
afterwards.  This refutes the claim that no stale completion mutates
state after Reset. -/
theorem c1_stale_completion_counterexample :
    mutationsAfter 0 (submitEvents (some 0) (Except.ok okRespW)) =
      [Ev.setUploadStatus ⟨some StatusType.error, "Submission cancelled."⟩] ∧
    mutationsAfter 7 (compileEvents readW loadW (some 7) filesW) =
      [Ev.setCompiledPdfBlob (some ⟨[10, 11, 20, 21, 22, 30], "application/pdf"⟩),
       Ev.setIsPreviewOpen true] := by decide

/-- C1 (amended): handleReset returns exactly the initial state from
any state; a compile whose reads and loads succeed and whose token is
signalled early enough to be observed at a loop iteration check
performs no state mutation after the abort; but a submit whose token
is signalled during the network call performs exactly one mutation
after the abort: it sets the notice {error, "Submission cancelled."}. -/
theorem c1_reset_and_stale_completions :
    (∀ s : AppState, handleReset s = initialState) ∧
    (∀ (read : File → Except JsError ArrayBuf) (load : ArrayBuf → Except JsError PdfDoc)
        (files : List File) (k : Nat),
      files ≠ [] →
      (∀ f ∈ files, ∃ d, (read f).bind load = Except.ok d) →
      k < 1 + 3 * (files.length - 1) →
      mutationsAfter k (compileEvents read load (some k) files) = []) ∧
    (∀ fetchResult : Except JsError FetchResponse,
      mutationsAfter 0 (submitEvents (some 0) fetchResult) =
        [Ev.setUploadStatus ⟨some StatusType.error, "Submission cancelled."⟩]) := by
  refine ⟨fun s => rfl, ?_, ?_⟩
  · intro read load files k hne hok hk
    obtain ⟨m, heq, hkm⟩ := compileEvents_abort read load files k hne hok hk
    rw [heq, mutationsAfter_cons_ne _ _ _ (by decide),
      mutationsAfter_cons_ne _ _ _ (by decide)]
    apply mutationsAfter_all_suspend
    intro x hx
    rcases List.mem_cons.mp hx with rfl | hx
    · rfl
    · exact List.eq_of_mem_replicate hx
  · intro fetchResult
    have hsub : submitEvents (some 0) fetchResult =
        [Ev.setIsProcessing true, Ev.suspend,
          Ev.setUploadStatus ⟨some StatusType.error, "Submission cancelled."⟩] := rfl
    rw [hsub]
    rfl

/-- Witness for C1 (amended): Reset on the sample previewing state,
an observed cancellation of the sample compile, and an aborted sample
submit. -/
theorem c1_reset_and_stale_completions_witness :
    handleReset stateSubW = initialState ∧
    mutationsAfter 0 (compileEvents readW loadW (some 0) filesW) = [] ∧
    mutationsAfter 0 (submitEvents (some 0) (Except.error (JsError.jsError "x"))) =
      [Ev.setUploadStatus ⟨some StatusType.error, "Submission cancelled."⟩] := by
  have h := c1_reset_and_stale_completions
  exact ⟨h.1 stateSubW,
    h.2.1 readW loadW filesW 0 (by decide) (fun f hf => ⟨_, rfl⟩) (by decide),
    h.2.2 (Except.error (JsError.jsError "x"))⟩

/-- C10: a single add call whose batch holds two distinct candidates
with an identical (name, size) pair that is not in the set appends
both — de-duplication is only checked against the pre-existing set, so
afterwards the set holds two entries with the same identity pair. -/
theorem c10_batch_duplicates_both_appended :
    fileA.name = fileB.name ∧ fileA.size = fileB.size ∧
    handleFilesAdded [fileA, fileB] [] = [fileA, fileB] := by decide

end SalesReview
